import Mathlib

/-
Verification of the ingestion/recommendation pipeline of the
03-ai-movie-recommender project (data/data_loader.py, src/vector_store.py,
src/recommender.py, pipeline/pipeline.py).

The Python code is shallowly embedded: pandas columns become lists, cells
become an inductive value type, machine floats on the relevant numeric data
(ratings, medians) are modelled exactly as rationals, exceptions become
Except values, and the mutable object state threaded by the classes becomes
explicit arguments and results.  String scanning helpers are written over
List Char with structural recursion so concrete runs reduce in the kernel.
-/

deriving instance DecidableEq for Except

namespace MovieRec

/-! ## Shared string and number utilities -/

/-- Value of a decimal digit character. -/
def digitVal (c : Char) : ℕ := c.toNat - 48

/-- Decimal reading of a digit list, most significant first. -/
def digitsToNat (cs : List Char) : ℕ := cs.foldl (fun a c => a * 10 + digitVal c) 0

/-- Numeric conversion shared by Python float() and pd.to_numeric on the
inputs this code base feeds them: an optional sign, a decimal integer part
and an optional fractional part.  Anything else (for example the sentinel
"Unknown") fails.  Exotic accepted spellings (exponents, padding
whitespace, inf/nan) do not occur in this pipeline and are not modelled. -/
def parseFloat (s : String) : Option ℚ :=
  let cs := s.toList
  let sgn : ℚ := match cs with
    | '-' :: _ => -1
    | _ => 1
  let cs1 : List Char := match cs with
    | '-' :: r => r
    | '+' :: r => r
    | r => r
  let intPart := cs1.takeWhile Char.isDigit
  let rest := cs1.dropWhile Char.isDigit
  match rest with
  | [] =>
      if intPart.isEmpty then none
      else some (sgn * (digitsToNat intPart : ℚ))
  | '.' :: frac =>
      if frac.all Char.isDigit && !(intPart.isEmpty && frac.isEmpty) then
        some (sgn * ((digitsToNat intPart : ℚ)
          + (digitsToNat frac : ℚ) / ((10 ^ frac.length : ℕ) : ℚ)))
      else none
  | _ => none

/-- Insertion into a sorted list of rationals. -/
def insertSorted (x : ℚ) : List ℚ → List ℚ
  | [] => [x]
  | y :: ys => if x ≤ y then x :: y :: ys else y :: insertSorted x ys

/-- Ascending insertion sort, used to define the median. -/
def sortRationals (l : List ℚ) : List ℚ := l.foldr insertSorted []

/-- pandas Series.median over the non-missing values: middle element of the
sorted list for odd length, mean of the two middles for even length, and
NaN (here: none) for an empty list. -/
def pandasMedian (l : List ℚ) : Option ℚ :=
  match l with
  | [] => none
  | _ :: _ =>
      let s := sortRationals l
      let n := s.length
      if n % 2 = 1 then some (s.getD (n / 2) 0)
      else some ((s.getD (n / 2 - 1) 0 + s.getD (n / 2) 0) / 2)

/-- Whitespace trim of a character list (Python str.strip). -/
def trimChars (cs : List Char) : List Char :=
  ((cs.dropWhile Char.isWhitespace).reverse.dropWhile Char.isWhitespace).reverse

/-- Python str.strip on a string. -/
def strTrim (s : String) : String := String.mk (trimChars s.toList)

/-- Python str.join with a single space separator. -/
def joinWithSpace : List String → String
  | [] => ""
  | [x] => x
  | x :: xs => x ++ " " ++ joinWithSpace xs

/-- Helper of pySplit: Python str.split() with no argument, splitting on
whitespace runs and dropping empty tokens; acc holds the current token
reversed. -/
def pySplitChars : List Char → List Char → List String
  | [], acc => if acc.isEmpty then [] else [String.mk acc.reverse]
  | c :: cs, acc =>
      if c.isWhitespace then
        if acc.isEmpty then pySplitChars cs []
        else String.mk acc.reverse :: pySplitChars cs []
      else pySplitChars cs (c :: acc)

/-- Python str.split() with no argument. -/
def pySplit (s : String) : List String := pySplitChars s.toList []

/-- Whether a token ends with a colon (Python part.endswith(':')). -/
def endsWithColon (t : String) : Bool :=
  match t.toList.getLast? with
  | some c => c = ':'
  | none => false

/-- Python part[:-1]. -/
def dropLastChar (t : String) : String := String.mk t.toList.dropLast

/-- Python dict assignment d[key] = v on an association list: replaces the
first binding of the key, else appends. -/
def assocSet {γ : Type} : List (String × γ) → String → γ → List (String × γ)
  | [], key, v => [(key, v)]
  | p :: ps, key, v => if p.1 = key then (key, v) :: ps else p :: assocSet ps key v

/-- Python dict.get(key) on an association list. -/
def assocGet {γ : Type} (m : List (String × γ)) (key : String) : Option γ :=
  match m.find? (fun p => p.1 = key) with
  | some p => some p.2
  | none => none

/-! ## Data loader: numeric cleaning (data/data_loader.py)

A raw pandas cell of a column is either missing (NaN), a number, or a
string.  The column of one numeric feature (rating, votes, year) is a list
of such cells. -/

/-- One raw cell of a pandas column. -/
inductive RawVal where
  | missing
  | num (q : ℚ)
  | str (s : String)
deriving DecidableEq

/-- pd.to_numeric(cell, errors='coerce'): numbers pass through, numeral
strings are parsed, anything else (including NaN) coerces to NaN. -/
def toNumericCell : RawVal → Option ℚ
  | .missing => none
  | .num q => some q
  | .str s => parseFloat s

/-- AnimeDataLoader._handle_missing_values on an object-dtype column:
fillna('Unknown'). -/
def handleMissingTextColumn (col : List RawVal) : List RawVal :=
  col.map (fun c => match c with | .missing => .str "Unknown" | c => c)

/-- Series.fillna(Series.median()): missing entries are replaced by the
column median of the non-missing entries; if the median itself is NaN
(empty column) filling is a no-op. -/
def fillColumnWithMedian (col : List (Option ℚ)) : List (Option ℚ) :=
  let med := pandasMedian (col.filterMap id)
  col.map (fun c => match c with | some v => some v | none => med)

/-- AnimeDataLoader._extract_numerical_features on one numeric column:
pd.to_numeric(errors='coerce') then fillna(median). -/
def extractNumericalColumn (col : List RawVal) : List (Option ℚ) :=
  fillColumnWithMedian (col.map toNumericCell)

/-- The two cleaning passes of clean_data that touch a numeric column read
from an object-dtype CSV column: _handle_missing_values (text fill with
'Unknown') followed by _extract_numerical_features (coerce + median
fill). -/
def cleanNumericColumn (col : List RawVal) : List (Option ℚ) :=
  extractNumericalColumn (handleMissingTextColumn col)

/-! ## Data loader: combined info column and duplicate removal -/

/-- One cleaned pandas cell, already stringified where the source code
stringifies it: either NaN or a string value. -/
inductive CellVal where
  | missing
  | val (s : String)
deriving DecidableEq

/-- A data frame row: column name/value pairs in column order. -/
abbrev Row := List (String × CellVal)

/-- row[col] access inside DataFrame.apply(axis=1). -/
def rowGet (r : Row) (c : String) : CellVal :=
  match r.find? (fun p => p.1 = c) with
  | some p => p.2
  | none => .missing

/-- A cleaned data frame: its column list and its rows. -/
structure AnimeTable where
  cols : List String
  rows : List Row
deriving DecidableEq

/-- One "col: value" piece of the combined info text: skipped when the cell
is NaN or its stringification strips to empty. -/
def combinedInfoPiece (r : Row) (c : String) : Option String :=
  match rowGet r c with
  | .missing => none
  | .val s => if strTrim s = "" then none else some (c ++ ": " ++ s)

/-- The per-row text built by _create_combined_info_column: space-joined
pieces over all columns except combined_info itself. -/
def combinedInfoText (cols : List String) (r : Row) : String :=
  joinWithSpace ((cols.filter (fun c => c ≠ "combined_info")).filterMap (combinedInfoPiece r))

/-- AnimeDataLoader._create_combined_info_column: assigns the combined_info
column on every row. -/
def createCombinedInfoColumn (t : AnimeTable) : AnimeTable :=
  { cols := if "combined_info" ∈ t.cols then t.cols else t.cols ++ ["combined_info"],
    rows := t.rows.map
      (fun r => assocSet r "combined_info" (.val (combinedInfoText t.cols r))) }

/-- Helper of dropDuplicates, scanning left to right with the set of key
values already seen (pandas drop_duplicates with keep='first' drops the
rows whose key occurred earlier). -/
def dropDupAux {α β : Type} [DecidableEq β] (k : α → β) : List β → List α → List α
  | _, [] => []
  | seen, x :: xs =>
      if k x ∈ seen then dropDupAux k seen xs
      else x :: dropDupAux k (k x :: seen) xs

/-- Reference form of first-occurrence deduplication: keep the head, drop
every later element with the same key, recurse. -/
def keepFirstBy {α β : Type} [DecidableEq β] (k : α → β) : List α → List α
  | [] => []
  | x :: xs => x :: keepFirstBy k (xs.filter (fun y => ! decide (k y = k x)))
termination_by l => l.length
decreasing_by
  simp only [List.length_cons]
  exact Nat.lt_succ_of_le (xs.length_filter_le _)

/-- AnimeDataLoader._remove_duplicates key columns: every column except
genre_list. -/
def keyColumns (cols : List String) : List String :=
  cols.filter (fun c => c ≠ "genre_list")

/-- The dedup key of a row: its values at the key columns. -/
def rowKey (cols : List String) (r : Row) : List CellVal :=
  (keyColumns cols).map (rowGet r)

/-- AnimeDataLoader._remove_duplicates: drop_duplicates(subset=key_columns)
with the default keep='first'. -/
def removeDuplicates (cols : List String) (rows : List Row) : List Row :=
  dropDupAux (rowKey cols) [] rows

/-! ## Vector store manager (src/vector_store.py)

The manager state that matters to the claims: the configured chunk size and
overlap, the prior content of the persist directory, and the combined_info
CSV (None when the file is absent, else its rows). -/

/-- Chunking configuration of AnimeVectorStore (chunk_size, chunk_overlap
constructor arguments, defaults 1000 and 200). -/
structure VSConfig where
  chunkSize : ℕ
  chunkOverlap : ℕ
deriving DecidableEq

/-- One LangChain Document: page_content plus the anime_id metadata the
code attaches. -/
structure VSDocument where
  content : String
  animeId : ℕ
deriving DecidableEq

/-- Helper of createDocuments: one Document per row of the data frame, with
anime_id equal to the row ordinal.  (The per-row try/except of the source
has no failing case in this model: every row carries a combined_info
string.) -/
def createDocumentsAux (idx : ℕ) : List String → List VSDocument
  | [] => []
  | r :: rs => ⟨r, idx⟩ :: createDocumentsAux (idx + 1) rs

/-- AnimeVectorStore.create_documents over the combined_info column. -/
def createDocuments (rows : List String) : List VSDocument :=
  createDocumentsAux 0 rows

/-- Modelled from the spec: the repository delegates chunking to an
external LangChain text splitter (RecursiveCharacterTextSplitter), whose
code is not part of this repository; the spec describes it as cutting each
document text into overlapping windows of the configured size.  Structural
helper on a character list with explicit fuel (the fuel is the list length,
which bounds the number of windows since the stride is at least one): a
text short enough yields itself as the single window, an empty text yields
no window, and a longer text yields a window of chunkSize characters and
recurses after advancing by the stride. -/
def chunkCharsFuel (size step : ℕ) : ℕ → List Char → List (List Char)
  | 0, _ => []
  | _, [] => []
  | n + 1, cs =>
      if cs.length ≤ size then [cs]
      else cs.take size :: chunkCharsFuel size step n (cs.drop (max 1 step))

/-- Modelled from the spec: windowed chunking of one document text with the
configured chunk size and overlap (stride = size - overlap, at least 1). -/
def chunkText (cfg : VSConfig) (s : String) : List String :=
  (chunkCharsFuel cfg.chunkSize (cfg.chunkSize - cfg.chunkOverlap) s.toList.length s.toList).map
    (fun cs => String.mk cs)

/-- AnimeVectorStore.chunk_documents: every document is split into chunks,
each chunk keeping its source document's metadata; the chunk lists are
concatenated in document order. -/
def chunkDocuments (cfg : VSConfig) (docs : List VSDocument) : List VSDocument :=
  (docs.map (fun d => (chunkText cfg d.content).map (fun t => ⟨t, d.animeId⟩))).flatten

/-- The persist directory before a call: absent (or existing but empty,
which the load routine treats the same way), present but failing to load
(corruption / schema mismatch), or present and loadable with its stored
index entries. -/
inductive PersistedIndex where
  | absent
  | corrupt
  | valid (entries : List VSDocument)
deriving DecidableEq

/-- The exceptions this model distinguishes. -/
inductive VSError where
  | attributeErrorIncrementalUpdate
  | fileNotFoundError
  | valueErrorNotInitialized
  | valueErrorUnsupportedModel
  | valueErrorFloatConversion
deriving DecidableEq

/-- AnimeVectorStore.load_existing_vector_store: absent or empty directory
gives None; a load exception is caught (logged) and gives None; otherwise
the loaded store is returned. -/
def loadExistingVectorStore : PersistedIndex → Option (List VSDocument)
  | .absent => none
  | .corrupt => none
  | .valid es => some es

/-- The rebuild tail of AnimeVectorStore.build_vector_store: wipe the
persist directory, load the CSV (raising FileNotFoundError when it does not
exist), create documents, chunk them, and embed them into a fresh store
whose entries are exactly the chunks. -/
def rebuildVectorStore (cfg : VSConfig) (csv : Option (List String)) :
    Except VSError (List VSDocument) :=
  match csv with
  | none => .error .fileNotFoundError
  | some rows => .ok (chunkDocuments cfg (createDocuments rows))

/-- AnimeVectorStore.build_vector_store(force_rebuild, incremental_update).
When force_rebuild is false and an existing store loads, the incremental
branch calls self. _incremental_update, a method the class never defines,
so Python raises AttributeError (re-raised by the surrounding handler);
without the incremental flag the loaded store is returned as-is.  All other
paths fall through to the full rebuild, whose outcome ignores the prior
persisted state entirely. -/
def buildVectorStore (cfg : VSConfig) (prior : PersistedIndex)
    (csv : Option (List String)) (forceRebuild incrementalUpdate : Bool) :
    Except VSError (List VSDocument) :=
  if forceRebuild = false then
    match loadExistingVectorStore prior with
    | some store =>
        if incrementalUpdate then .error .attributeErrorIncrementalUpdate
        else .ok store
    | none => rebuildVectorStore cfg csv
  else rebuildVectorStore cfg csv

/-! ## Embedding initialization and collection introspection -/

/-- The embedding object stored on self.embeddings. -/
inductive EmbeddingModel where
  | openaiEmbeddings (apiKey : String)
  | huggingfaceEmbeddings
deriving DecidableEq

/-- Python truthiness of the OPENAI_API_KEY configuration value (None or
the empty string are falsy). -/
def truthyKey : Option String → Bool
  | none => false
  | some s => !s.isEmpty

/-- The known embedding dimension of the fallback provider
(sentence-transformers all-MiniLM-L6-v2), quoted by the spec as the value
introspection should reflect. -/
def huggingfaceEmbeddingDimension : ℕ := 384

/-- AnimeVectorStore.initialize_embeddings: with model 'openai' and no
truthy key, the model is silently switched to 'huggingface'; a truthy key
builds OpenAI embeddings; the (possibly switched) 'huggingface' model
builds HuggingFace embeddings; if nothing was built the method raises
ValueError.  Result: the embeddings object and the final value of
self.embedding_model. -/
def initializeEmbeddings (openaiApiKey : Option String) (embeddingModel : String) :
    Except VSError (EmbeddingModel × String) :=
  let step1 : String × Option EmbeddingModel :=
    if embeddingModel = "openai" then
      match openaiApiKey with
      | some key =>
          if key.isEmpty then ("huggingface", none)
          else ("openai", some (.openaiEmbeddings key))
      | none => ("huggingface", none)
    else (embeddingModel, none)
  let step2 : String × Option EmbeddingModel :=
    if step1.1 = "huggingface" then (step1.1, some .huggingfaceEmbeddings) else step1
  match step2.2 with
  | some e => .ok (e, step2.1)
  | none => .error .valueErrorUnsupportedModel

/-- The Chroma collection underlying the vector store, as far as
get_collection_info reads it. -/
structure ChromaCollection where
  name : String
  count : ℕ
  metadata : Option (List (String × String))
deriving DecidableEq

/-- The dictionary returned by AnimeVectorStore.get_collection_info. -/
structure CollectionInfo where
  collectionName : String
  documentCount : ℕ
  embeddingDimension : String
  persistDirectory : String
deriving DecidableEq

/-- AnimeVectorStore.get_collection_info: ValueError when the store is not
initialized; otherwise the collection name, entry count, the
embedding_dimension field computed as metadata.get('hnsw:space', 'unknown')
when the metadata dict is truthy and 'unknown' otherwise, and the persist
directory. -/
def getCollectionInfo (persistDirectory : String) :
    Option ChromaCollection → Except VSError CollectionInfo
  | none => .error .valueErrorNotInitialized
  | some c =>
      let metadata : List (String × String) := match c.metadata with
        | some m => m
        | none => []
      let embeddingDimension : String :=
        if metadata.isEmpty then "unknown"
        else match assocGet metadata "hnsw:space" with
          | some v => v
          | none => "unknown"
      .ok ⟨c.name, c.count, embeddingDimension, persistDirectory⟩

/-! ## Recommendation engine (src/recommender.py) -/

/-- AnimeRecommender._parse_movie_info: whitespace-split the combined info
text; a token ending in a colon closes the pending key/value pair (kept
only when both the key and the collected value list are truthy) and opens a
new key from the token minus its colon; other tokens extend the value of a
truthy pending key; the final pending pair is flushed under the same
condition. -/
def parseMovieInfo (combinedInfo : String) : List (String × String) :=
  let flush : List (String × String) → Option String → List String → List (String × String) :=
    fun info currentKey currentValue =>
      match currentKey with
      | some k =>
          if !k.isEmpty && !currentValue.isEmpty then assocSet info k (joinWithSpace currentValue)
          else info
      | none => info
  let step : List (String × String) × Option String × List String → String →
      List (String × String) × Option String × List String :=
    fun st part =>
      let info := st.1
      let currentKey := st.2.1
      let currentValue := st.2.2
      if endsWithColon part then
        (flush info currentKey currentValue, some (dropLastChar part), [])
      else
        match currentKey with
        | some k => if !k.isEmpty then (info, currentKey, currentValue ++ [part]) else st
        | none => st
  let final := (pySplit combinedInfo).foldl step ([], none, [])
  flush final.1 final.2.1 final.2.2

/-- Python float(info.get("rating", 0)): a missing key defaults to the
number 0; a present value goes through the unguarded float() conversion,
which raises ValueError on a non-numeral string. -/
def ratingToFloat (v : Option String) : Except VSError ℚ :=
  match v with
  | none => .ok 0
  | some s =>
      match parseFloat s with
      | some q => .ok q
      | none => .error .valueErrorFloatConversion

/-- One entry of the list built by get_recommendations_by_rating. -/
structure RatingRecommendation where
  title : String
  genre : String
  rating : ℚ
  runtime : String
  certificate : String
deriving DecidableEq

/-- AnimeRecommender.get_recommendations_by_rating over the retrieved
documents' page contents: parse each, convert the rating (an exception
aborts the whole call, re-raised by the handler), and keep the entries
whose rating reaches the threshold. -/
def getRecommendationsByRating (minRating : ℚ) :
    List String → Except VSError (List RatingRecommendation)
  | [] => .ok []
  | d :: rest =>
      let info := parseMovieInfo d
      match ratingToFloat (assocGet info "rating") with
      | .error e => .error e
      | .ok rating =>
          match getRecommendationsByRating minRating rest with
          | .error e => .error e
          | .ok recs =>
              if minRating ≤ rating then
                .ok ({ title := (assocGet info "title").getD "Unknown",
                       genre := (assocGet info "genre").getD "Unknown",
                       rating := rating,
                       runtime := (assocGet info "runtime").getD "Unknown",
                       certificate := (assocGet info "certificate").getD "Unknown" } :: recs)
              else .ok recs

/-- Extraction of the answer text in AnimeRecommender.get_recommendations:
response.get("output", response.get("answer", response.get("result",
"No recommendations generated"))). -/
def extractRecommendations (response : List (String × String)) : String :=
  match assocGet response "output" with
  | some v => v
  | none =>
      match assocGet response "answer" with
      | some v => v
      | none =>
          match assocGet response "result" with
          | some v => v
          | none => "No recommendations generated"

/-- The fixed visual delimiter wrapped around the answer text. -/
def formatAnswer (recommendations : String) : String :=
  "\n=============\n" ++ recommendations ++ "\n=============\n"

/-- One entry of the similar_movies field: a 200-character preview of the
page content plus the anime_id metadata. -/
structure SimilarMovie where
  content : String
  animeId : ℕ
deriving DecidableEq

/-- The dictionary returned by AnimeRecommender.get_recommendations. -/
structure RecommendationResults where
  query : String
  recommendations : String
  similarMovies : List SimilarMovie
  modelUsed : String
deriving DecidableEq

/-- AnimeRecommender.get_recommendations, given the structured response of
the retrieval chain and the documents of the side similarity search:
ValueError when the chain is not initialized, otherwise a well-formed
results dictionary whose recommendations text is the extracted (or
substituted) answer wrapped in the delimiter. -/
def getRecommendations (retrievalChainReady : Bool)
    (response : List (String × String)) (similarDocs : List VSDocument)
    (userQuery modelName : String) : Except VSError RecommendationResults :=
  if retrievalChainReady = false then .error .valueErrorNotInitialized
  else .ok
    { query := userQuery,
      recommendations := formatAnswer (extractRecommendations response),
      similarMovies := similarDocs.map
        (fun d => ⟨String.mk (d.content.toList.take 200) ++ "...", d.animeId⟩),
      modelUsed := modelName }

/-! ## Pipeline orchestrator (pipeline/pipeline.py) -/

/-- The self.pipeline_status record of AnimeIngestionPipeline. -/
structure PipelineStatus where
  dataLoading : Bool
  vectorStoreCreation : Bool
  recommenderInitialization : Bool
  overallStatus : String
deriving DecidableEq

/-- Pipeline status as set by the constructor. -/
def initialPipelineStatus : PipelineStatus :=
  ⟨false, false, false, "not_started"⟩

/-- The results dictionary of run_complete_pipeline (the per-stage
statistics, opaque dictionaries built from collaborator output, are not
modelled). -/
structure PipelineResults where
  pipelineStatus : String
  stepsCompleted : List String
  errors : List String
deriving DecidableEq

/-- AnimeIngestionPipeline.run_complete_pipeline.  Each stage's external
outcome (would it raise, and with what message) is an input; a stage runs
only if every earlier stage succeeded.  A successful stage sets its status
flag and appends its name to steps_completed; a raising stage sets its own
flag false and the exception propagates to the outer handler, which sets
the overall status to failed, records the error in the results, and returns
them.  Completed flags of earlier stages are never reset. -/
def runCompletePipeline (s1 s2 s3 : Except String Unit) (st : PipelineStatus) :
    PipelineResults × PipelineStatus :=
  match s1 with
  | .error e =>
      (⟨"failed", [], [e]⟩,
       { st with dataLoading := false, overallStatus := "failed" })
  | .ok _ =>
      let st1 := { st with dataLoading := true }
      match s2 with
      | .error e =>
          (⟨"failed", ["data_loading"], [e]⟩,
           { st1 with vectorStoreCreation := false, overallStatus := "failed" })
      | .ok _ =>
          let st2 := { st1 with vectorStoreCreation := true }
          match s3 with
          | .error e =>
              (⟨"failed", ["data_loading", "vector_store_creation"], [e]⟩,
               { st2 with recommenderInitialization := false, overallStatus := "failed" })
          | .ok _ =>
              (⟨"completed",
                ["data_loading", "vector_store_creation", "recommender_initialization"], []⟩,
               { st2 with recommenderInitialization := true, overallStatus := "completed" })

/-! ## Lemmas about the numeric cleaning passes -/

theorem pandasMedian_isSome {l : List ℚ} (h : l ≠ []) : ∃ m, pandasMedian l = some m := by
  cases l with
  | nil => exact absurd rfl h
  | cons x xs =>
      simp only [pandasMedian]
      split
      · exact ⟨_, rfl⟩
      · exact ⟨_, rfl⟩

theorem toNumericCell_fillUnknown (c : RawVal) :
    toNumericCell (match c with | .missing => RawVal.str "Unknown" | c => c) = toNumericCell c := by
  cases c with
  | missing =>
      show parseFloat "Unknown" = none
      decide
  | num q => rfl
  | str s => rfl

theorem cleanNumericColumn_eq (col : List RawVal) :
    cleanNumericColumn col = fillColumnWithMedian (col.map toNumericCell) := by
  unfold cleanNumericColumn extractNumericalColumn handleMissingTextColumn
  rw [List.map_map]
  congr 1
  exact List.map_congr_left (fun c _ => toNumericCell_fillUnknown c)

/-- C3: for every raw numeric column with at least one coercible value,
every missing cell of the cleaned column equals the median of the coerced
non-missing values, and no cleaned cell is missing (coercion failures are
masked by the median). -/
theorem missing_numeric_fields_filled_with_median (col : List RawVal)
    (h : (col.map toNumericCell).filterMap id ≠ []) :
    ∃ m, pandasMedian ((col.map toNumericCell).filterMap id) = some m ∧
      (∀ i : ℕ, col[i]? = some RawVal.missing → (cleanNumericColumn col)[i]? = some (some m)) ∧
      (∀ v ∈ cleanNumericColumn col, v ≠ none) := by
  obtain ⟨m, hm⟩ := pandasMedian_isSome h
  refine ⟨m, hm, ?_, ?_⟩
  · intro i hi
    rw [cleanNumericColumn_eq]
    simp only [fillColumnWithMedian, List.getElem?_map, hi, Option.map_some']
    rw [hm]
    rfl
  · intro v hv
    rw [cleanNumericColumn_eq] at hv
    simp only [fillColumnWithMedian, List.mem_map] at hv
    obtain ⟨c, -, rfl⟩ := hv
    cases c with
    | some q => exact Option.some_ne_none q
    | none => rw [hm]; exact Option.some_ne_none m

/-- C3 counterexample: a numeric column whose cells are all missing has no
median to impute, so the cleaned column still contains a missing cell,
refuting the unconditional claim that no cleaned record has a missing
numeric field. -/
theorem all_missing_column_counterexample :
    cleanNumericColumn [RawVal.missing] = [none] ∧
    (none : Option ℚ) ∈ cleanNumericColumn [RawVal.missing] := by
  constructor
  · decide
  · decide

/-- C3 witness: the amended claim instantiated on a concrete column with
two numbers and one missing cell. -/
theorem missing_numeric_fields_filled_witness :
    ∃ m, pandasMedian (([RawVal.num 2, RawVal.num 4, RawVal.missing].map toNumericCell).filterMap id)
        = some m ∧
      (∀ i : ℕ, [RawVal.num 2, RawVal.num 4, RawVal.missing][i]? = some RawVal.missing →
        (cleanNumericColumn [RawVal.num 2, RawVal.num 4, RawVal.missing])[i]? = some (some m)) ∧
      (∀ v ∈ cleanNumericColumn [RawVal.num 2, RawVal.num 4, RawVal.missing], v ≠ none) :=
  missing_numeric_fields_filled_with_median [RawVal.num 2, RawVal.num 4, RawVal.missing] (by decide)

/-! ## Lemmas about the combined info column -/

theorem rowGet_assocSet_ne (r : Row) (key c : String) (v : CellVal) (h : c ≠ key) :
    rowGet (assocSet r key v) c = rowGet r c := by
  induction r with
  | nil =>
      simp only [assocSet, rowGet, List.find?]
      rw [show (decide ((key, v).1 = c)) = false from decide_eq_false (fun hk => h hk.symm)]
  | cons p ps ih =>
      by_cases hp : p.1 = key
      · simp only [assocSet, if_pos hp, rowGet, List.find?]
        rw [show (decide ((key, v).1 = c)) = false from decide_eq_false (fun hk => h hk.symm),
          show (decide (p.1 = c)) = false from decide_eq_false (fun hk => h (hp ▸ hk).symm)]
      · simp only [assocSet, if_neg hp, rowGet, List.find?]
        cases hpc : decide (p.1 = c) with
        | true => rfl
        | false => exact ih

theorem assocSet_assocSet_same {γ : Type} (m : List (String × γ)) (key : String) (v w : γ) :
    assocSet (assocSet m key v) key w = assocSet m key w := by
  induction m with
  | nil => simp [assocSet]
  | cons p ps ih =>
      by_cases hp : p.1 = key
      · simp [assocSet, hp]
      · simp only [assocSet, if_neg hp, ih]

theorem combinedInfoPiece_assocSet (r : Row) (v : CellVal) (c : String)
    (h : c ≠ "combined_info") :
    combinedInfoPiece (assocSet r "combined_info" v) c = combinedInfoPiece r c := by
  unfold combinedInfoPiece
  rw [rowGet_assocSet_ne r "combined_info" c v h]

theorem filterMap_combinedInfoPiece_assocSet (r : Row) (v : CellVal) (cs : List String)
    (h : ∀ c ∈ cs, c ≠ "combined_info") :
    cs.filterMap (combinedInfoPiece (assocSet r "combined_info" v)) =
      cs.filterMap (combinedInfoPiece r) := by
  induction cs with
  | nil => rfl
  | cons c cs ih =>
      simp only [List.filterMap_cons]
      rw [combinedInfoPiece_assocSet r v c (h c (List.mem_cons_self c cs)),
        ih (fun x hx => h x (List.mem_cons_of_mem c hx))]

theorem combinedInfoText_assocSet (cols : List String) (r : Row) (v : CellVal) :
    combinedInfoText cols (assocSet r "combined_info" v) = combinedInfoText cols r := by
  unfold combinedInfoText
  congr 1
  apply filterMap_combinedInfoPiece_assocSet
  intro c hc
  exact of_decide_eq_true (List.mem_filter.mp hc).2

theorem filter_combined_info_cols (cols : List String) :
    (if "combined_info" ∈ cols then cols else cols ++ ["combined_info"]).filter
        (fun c => c ≠ "combined_info") =
      cols.filter (fun c => c ≠ "combined_info") := by
  by_cases h : "combined_info" ∈ cols
  · rw [if_pos h]
  · rw [if_neg h, List.filter_append]
    simp

theorem combinedInfoText_filter_eq (cols1 cols2 : List String) (r : Row)
    (h : cols1.filter (fun c => c ≠ "combined_info") =
      cols2.filter (fun c => c ≠ "combined_info")) :
    combinedInfoText cols1 r = combinedInfoText cols2 r := by
  unfold combinedInfoText
  rw [h]

/-- C7: generating the combined_info column is idempotent, hence
deterministic across regeneration: applying _create_combined_info_column a
second time to its own output changes nothing, so both runs carry
byte-identical text for every row. -/
theorem combined_info_generation_idempotent (t : AnimeTable) :
    createCombinedInfoColumn (createCombinedInfoColumn t) = createCombinedInfoColumn t := by
  unfold createCombinedInfoColumn
  have hmem : "combined_info" ∈
      (if "combined_info" ∈ t.cols then t.cols else t.cols ++ ["combined_info"]) := by
    by_cases h : "combined_info" ∈ t.cols
    · rw [if_pos h]; exact h
    · rw [if_neg h]; exact List.mem_append_right t.cols (List.mem_singleton.mpr rfl)
  refine congrArg₂ AnimeTable.mk ?_ ?_
  · rw [if_pos hmem]
  · rw [List.map_map]
    apply List.map_congr_left
    intro r _
    show assocSet (assocSet r "combined_info" _) "combined_info" _ = _
    rw [assocSet_assocSet_same]
    rw [combinedInfoText_assocSet]
    rw [combinedInfoText_filter_eq _ t.cols r (filter_combined_info_cols t.cols)]

/-! ## Lemmas about duplicate removal -/

theorem dropDupAux_sublist {α β : Type} [DecidableEq β] (k : α → β) (seen : List β)
    (l : List α) : (dropDupAux k seen l).Sublist l := by
  induction l generalizing seen with
  | nil => exact List.Sublist.refl []
  | cons x xs ih =>
      simp only [dropDupAux]
      by_cases hx : k x ∈ seen
      · rw [if_pos hx]
        exact (ih seen).trans (List.sublist_cons_self x xs)
      · rw [if_neg hx]
        exact (ih (k x :: seen)).cons₂ x

theorem dropDupAux_of_nodup {α β : Type} [DecidableEq β] (k : α → β) (seen : List β)
    (l : List α) (h1 : ∀ y ∈ l, k y ∉ seen) (h2 : (l.map k).Nodup) :
    dropDupAux k seen l = l := by
  induction l generalizing seen with
  | nil => rfl
  | cons x xs ih =>
      have hx : k x ∉ seen := h1 x (List.mem_cons_self x xs)
      simp only [dropDupAux, if_neg hx]
      congr 1
      apply ih
      · intro y hy hmem
        rcases List.mem_cons.mp hmem with heq | hseen
        · have : k x ∈ xs.map k := heq ▸ List.mem_map_of_mem k hy
          rw [List.map_cons] at h2
          exact (List.nodup_cons.mp h2).1 this
        · exact h1 y (List.mem_cons_of_mem x hy) hseen
      · rw [List.map_cons] at h2
        exact (List.nodup_cons.mp h2).2

theorem dropDupAux_eq_keepFirstBy {α β : Type} [DecidableEq β] (k : α → β) (seen : List β)
    (l : List α) :
    dropDupAux k seen l = keepFirstBy k (l.filter (fun y => ! decide (k y ∈ seen))) := by
  induction l generalizing seen with
  | nil => rw [show dropDupAux k seen [] = [] from rfl, List.filter_nil, keepFirstBy]
  | cons x xs ih =>
      simp only [dropDupAux, List.filter_cons]
      by_cases hx : k x ∈ seen
      · rw [if_pos hx]
        rw [show (! decide (k x ∈ seen)) = false by simp [hx]]
        simp only [Bool.false_eq_true, if_false]
        exact ih seen
      · rw [if_neg hx]
        rw [show (! decide (k x ∈ seen)) = true by simp [hx]]
        simp only [if_true]
        rw [keepFirstBy, ih (k x :: seen), List.filter_filter]
        congr 1
        apply congrArg (keepFirstBy k)
        apply List.filter_congr
        intro a _
        by_cases h1 : k a = k x <;> by_cases h2 : k a ∈ seen <;>
          simp [h1, h2, List.mem_cons]

/-- C8: duplicate removal keyed on every column except genre_list is the
first-occurrence deduplication: on key-duplicate-free input it is the
identity (row count unchanged), and in general it keeps the first
occurrence of every key and preserves the relative row order (the result
is a sublist of the input). -/
theorem remove_duplicates_idempotent_keep_first (cols : List String) (rows : List Row) :
    ((rows.map (rowKey cols)).Nodup →
      removeDuplicates cols rows = rows ∧
      (removeDuplicates cols rows).length = rows.length) ∧
    removeDuplicates cols rows = keepFirstBy (rowKey cols) rows ∧
    (removeDuplicates cols rows).Sublist rows := by
  refine ⟨?_, ?_, dropDupAux_sublist (rowKey cols) [] rows⟩
  · intro h
    have heq : removeDuplicates cols rows = rows :=
      dropDupAux_of_nodup (rowKey cols) [] rows (by intro y _ hy; exact (List.not_mem_nil _) hy) h
    exact ⟨heq, by rw [heq]⟩
  · rw [removeDuplicates, dropDupAux_eq_keepFirstBy]
    congr 1
    apply List.filter_eq_self.mpr
    intro a _
    simp

/-- C8 witness: the theorem instantiated on a concrete two-row table that
is duplicate-free on the key columns (the rows differ only outside
genre_list), discharging the no-duplicates hypothesis. -/
theorem remove_duplicates_witness :
    (removeDuplicates ["title", "genre_list"]
        [[("title", CellVal.val "a"), ("genre_list", CellVal.val "g1")],
         [("title", CellVal.val "b"), ("genre_list", CellVal.val "g1")]] =
      [[("title", CellVal.val "a"), ("genre_list", CellVal.val "g1")],
       [("title", CellVal.val "b"), ("genre_list", CellVal.val "g1")]] ∧
      (removeDuplicates ["title", "genre_list"]
        [[("title", CellVal.val "a"), ("genre_list", CellVal.val "g1")],
         [("title", CellVal.val "b"), ("genre_list", CellVal.val "g1")]]).length = 2) ∧
    removeDuplicates ["title", "genre_list"]
        [[("title", CellVal.val "a"), ("genre_list", CellVal.val "g1")],
         [("title", CellVal.val "b"), ("genre_list", CellVal.val "g1")]] =
      keepFirstBy (rowKey ["title", "genre_list"])
        [[("title", CellVal.val "a"), ("genre_list", CellVal.val "g1")],
         [("title", CellVal.val "b"), ("genre_list", CellVal.val "g1")]] ∧
    (removeDuplicates ["title", "genre_list"]
        [[("title", CellVal.val "a"), ("genre_list", CellVal.val "g1")],
         [("title", CellVal.val "b"), ("genre_list", CellVal.val "g1")]]).Sublist
      [[("title", CellVal.val "a"), ("genre_list", CellVal.val "g1")],
       [("title", CellVal.val "b"), ("genre_list", CellVal.val "g1")]] :=
  ⟨(remove_duplicates_idempotent_keep_first _ _).1 (by decide),
   (remove_duplicates_idempotent_keep_first _ _).2.1,
   (remove_duplicates_idempotent_keep_first _ _).2.2⟩

/-! ## Lemmas about the vector store build -/

theorem chunkCharsFuel_short (size step n : ℕ) (c : Char) (cs : List Char)
    (h : (c :: cs).length ≤ size) : chunkCharsFuel size step (n + 1) (c :: cs) = [c :: cs] := by
  rw [chunkCharsFuel]
  · exact if_pos h
  · simp

theorem chunkText_singleton (cfg : VSConfig) (s : String) (h1 : 0 < s.length)
    (h2 : s.length ≤ cfg.chunkSize) : chunkText cfg s = [s] := by
  have hlen : s.toList.length = s.length := rfl
  cases hcs : s.toList with
  | nil =>
      have : s.length = 0 := by rw [← hlen, hcs]; rfl
      omega
  | cons c cs =>
      unfold chunkText
      rw [hcs, List.length_cons, chunkCharsFuel_short]
      · rw [List.map_singleton, ← hcs]
        rfl
      · rw [← hcs, hlen]
        exact h2

theorem createDocumentsAux_length (i : ℕ) (rows : List String) :
    (createDocumentsAux i rows).length = rows.length := by
  induction rows generalizing i with
  | nil => rfl
  | cons r rs ih => simp [createDocumentsAux, ih]

theorem createDocumentsAux_content (i : ℕ) (rows : List String) :
    ∀ d ∈ createDocumentsAux i rows, d.content ∈ rows := by
  induction rows generalizing i with
  | nil => intro d hd; exact absurd hd (List.not_mem_nil d)
  | cons r rs ih =>
      intro d hd
      rcases List.mem_cons.mp hd with heq | hmem
      · rw [heq]; exact List.mem_cons_self r rs
      · exact List.mem_cons_of_mem r (ih (i + 1) d hmem)

theorem chunkDocuments_length_of_singletons (cfg : VSConfig) (docs : List VSDocument)
    (h : ∀ d ∈ docs, (chunkText cfg d.content).length = 1) :
    (chunkDocuments cfg docs).length = docs.length := by
  induction docs with
  | nil => rfl
  | cons d ds ih =>
      simp only [chunkDocuments, List.map_cons, List.flatten_cons, List.length_append,
        List.length_map]
      rw [h d (List.mem_cons_self d ds)]
      have := ih (fun x hx => h x (List.mem_cons_of_mem d hx))
      simp only [chunkDocuments] at this
      rw [this, List.length_cons]
      exact Nat.add_comm 1 ds.length

/-- C1 (amended): with force_rebuild true the build never consults the
prior persisted state: the result is the freshly chunked corpus, identical
for every prior state (absent, corrupt, or valid); the entry count is the
number of chunks, and in particular equals the corpus size whenever every
corpus document is nonempty and fits inside one chunk. -/
theorem force_rebuild_discards_prior_state (cfg : VSConfig) (prior prior2 : PersistedIndex)
    (rows : List String) (incrementalUpdate : Bool) :
    buildVectorStore cfg prior (some rows) true incrementalUpdate =
      .ok (chunkDocuments cfg (createDocuments rows)) ∧
    buildVectorStore cfg prior (some rows) true incrementalUpdate =
      buildVectorStore cfg prior2 (some rows) true incrementalUpdate ∧
    ((∀ r ∈ rows, 0 < r.length ∧ r.length ≤ cfg.chunkSize) →
      ∃ es, buildVectorStore cfg prior (some rows) true incrementalUpdate = .ok es ∧
        es.length = rows.length) := by
  refine ⟨rfl, rfl, ?_⟩
  intro h
  refine ⟨chunkDocuments cfg (createDocuments rows), rfl, ?_⟩
  rw [chunkDocuments_length_of_singletons]
  · exact createDocumentsAux_length 0 rows
  · intro d hd
    have hr := createDocumentsAux_content 0 rows d hd
    rw [chunkText_singleton cfg d.content (h d.content hr).1 (h d.content hr).2]
    rfl

/-- C1 counterexample: rebuilding over a one-document corpus whose text is
longer than the configured chunk size leaves three index entries, not one,
so the post-rebuild entry count is the chunk count, not the corpus size. -/
theorem force_rebuild_entry_count_counterexample :
    buildVectorStore ⟨3, 1⟩ .absent (some ["abcdef"]) true false =
      .ok [⟨"abc", 0⟩, ⟨"cde", 0⟩, ⟨"ef", 0⟩] ∧
    (buildVectorStore ⟨3, 1⟩ .absent (some ["abcdef"]) true false).map
      (fun es => es.length) = .ok 3 ∧
    ["abcdef"].length = 1 ∧ (3 : ℕ) ≠ 1 := by
  refine ⟨by decide, by decide, rfl, by decide⟩

/-- C1 witness: the amended claim instantiated with a corrupt prior state,
a distinct valid prior state, and a corpus of one short document. -/
theorem force_rebuild_discards_prior_state_witness :
    buildVectorStore ⟨3, 1⟩ .corrupt (some ["ab"]) true false =
      .ok (chunkDocuments ⟨3, 1⟩ (createDocuments ["ab"])) ∧
    buildVectorStore ⟨3, 1⟩ .corrupt (some ["ab"]) true false =
      buildVectorStore ⟨3, 1⟩ (.valid [⟨"stale", 9⟩]) (some ["ab"]) true false ∧
    ∃ es, buildVectorStore ⟨3, 1⟩ .corrupt (some ["ab"]) true false = .ok es ∧
      es.length = ["ab"].length :=
  ⟨(force_rebuild_discards_prior_state ⟨3, 1⟩ .corrupt (.valid [⟨"stale", 9⟩]) ["ab"] false).1,
   (force_rebuild_discards_prior_state ⟨3, 1⟩ .corrupt (.valid [⟨"stale", 9⟩]) ["ab"] false).2.1,
   (force_rebuild_discards_prior_state ⟨3, 1⟩ .corrupt (.valid [⟨"stale", 9⟩]) ["ab"] false).2.2
     (by decide)⟩

/-- C2: a persisted index that fails to load is treated exactly like an
absent one: build_or_load with force_rebuild=False returns the same outcome
on a corrupt prior state as on an absent one (the load failure is caught,
never surfaced), and whenever the corpus CSV is readable the call completes
successfully with a full rebuild. -/
theorem corrupt_index_treated_as_absent (cfg : VSConfig) (csv : Option (List String))
    (incrementalUpdate : Bool) :
    buildVectorStore cfg .corrupt csv false incrementalUpdate =
      buildVectorStore cfg .absent csv false incrementalUpdate ∧
    (∀ rows, csv = some rows →
      buildVectorStore cfg .corrupt csv false incrementalUpdate =
        .ok (chunkDocuments cfg (createDocuments rows))) := by
  refine ⟨rfl, ?_⟩
  intro rows h
  rw [h]
  rfl

/-- C2 witness: the theorem instantiated on a corrupt directory with a
readable one-row corpus, with the incremental flag set (the corrupt load
still falls back to the rebuild, bypassing the incremental branch). -/
theorem corrupt_index_treated_as_absent_witness :
    buildVectorStore ⟨3, 1⟩ .corrupt (some ["ab"]) false true =
      buildVectorStore ⟨3, 1⟩ .absent (some ["ab"]) false true ∧
    buildVectorStore ⟨3, 1⟩ .corrupt (some ["ab"]) false true =
      .ok (chunkDocuments ⟨3, 1⟩ (createDocuments ["ab"])) :=
  ⟨(corrupt_index_treated_as_absent ⟨3, 1⟩ (some ["ab"]) true).1,
   (corrupt_index_treated_as_absent ⟨3, 1⟩ (some ["ab"]) true).2 ["ab"] rfl⟩

/-- C9: whenever a persisted index exists and loads, build_vector_store
with force_rebuild=False and incremental_update=True reaches the call to
the undefined method self. _incremental_update and raises AttributeError
instead of returning a store, for every loadable prior state and every
corpus. -/
theorem incremental_update_raises_attribute_error (cfg : VSConfig)
    (entries : List VSDocument) (csv : Option (List String)) :
    buildVectorStore cfg (.valid entries) csv false true =
      .error .attributeErrorIncrementalUpdate := rfl

/-- C6 (amended): when the primary credential is absent (unset or empty),
embedding initialization silently substitutes the HuggingFace fallback and
never raises; but the embedding_dimension reported by get_collection_info
is the collection metadata's hnsw:space value, or the string "unknown" when
no metadata carries that key — it is never derived from the provider's
embedding dimension. -/
theorem silent_fallback_and_introspection (openaiApiKey : Option String)
    (persistDirectory : String) (c : ChromaCollection)
    (h : truthyKey openaiApiKey = false) :
    initializeEmbeddings openaiApiKey "openai" =
      .ok (.huggingfaceEmbeddings, "huggingface") ∧
    ∃ info, getCollectionInfo persistDirectory (some c) = .ok info ∧
      info.documentCount = c.count ∧
      (info.embeddingDimension = "unknown" ∨
        assocGet (c.metadata.getD []) "hnsw:space" = some info.embeddingDimension) := by
  constructor
  · cases openaiApiKey with
    | none => rfl
    | some key =>
        have hk : key.isEmpty = true := by
          simpa [truthyKey] using h
        simp [initializeEmbeddings, hk]
  · refine ⟨_, rfl, rfl, ?_⟩
    show (if (match c.metadata with | some m => m | none => []).isEmpty then "unknown"
      else match assocGet (match c.metadata with | some m => m | none => []) "hnsw:space" with
        | some v => v
        | none => "unknown") = "unknown" ∨ _
    cases hm : c.metadata with
    | none => exact Or.inl (by simp)
    | some m =>
        by_cases hme : m.isEmpty
        · exact Or.inl (by simp [hme])
        · cases hg : assocGet m "hnsw:space" with
          | none => exact Or.inl (by simp [hme, hg])
          | some v => exact Or.inr (by simp [hme, hg])

/-- C6 counterexample: with the credential absent the fallback is selected
silently, but introspection reports "unknown" (metadata absent) or the
stored hnsw:space distance name ("cosine"), never the fallback provider's
known embedding dimension 384. -/
theorem embedding_dimension_counterexample :
    initializeEmbeddings none "openai" = .ok (.huggingfaceEmbeddings, "huggingface") ∧
    getCollectionInfo "data/chroma_db" (some ⟨"langchain", 7, none⟩) =
      .ok ⟨"langchain", 7, "unknown", "data/chroma_db"⟩ ∧
    getCollectionInfo "data/chroma_db" (some ⟨"langchain", 7, some [("hnsw:space", "cosine")]⟩) =
      .ok ⟨"langchain", 7, "cosine", "data/chroma_db"⟩ ∧
    huggingfaceEmbeddingDimension = 384 ∧
    "unknown" ≠ "384" ∧ "cosine" ≠ "384" := by
  refine ⟨by decide, by decide, by decide, rfl, by decide, by decide⟩

/-- C6 witness: the amended claim instantiated with an absent key and a
concrete collection without metadata. -/
theorem silent_fallback_witness :
    initializeEmbeddings none "openai" =
      .ok (.huggingfaceEmbeddings, "huggingface") ∧
    ∃ info, getCollectionInfo "data/chroma_db"
        (some ⟨"langchain", 7, none⟩) = .ok info ∧
      info.documentCount = (⟨"langchain", 7, none⟩ : ChromaCollection).count ∧
      (info.embeddingDimension = "unknown" ∨
        assocGet ((⟨"langchain", 7, none⟩ : ChromaCollection).metadata.getD [])
          "hnsw:space" = some info.embeddingDimension) :=
  silent_fallback_and_introspection none "data/chroma_db" ⟨"langchain", 7, none⟩ (by decide)

/-- C5 (amended): when the generator response carries none of the expected
keys (output, answer, result), get_recommendations substitutes the literal
placeholder "No recommendations generated" as the recommendations text and
returns a well-formed result rather than failing. -/
theorem missing_answer_key_uses_placeholder (response : List (String × String))
    (similarDocs : List VSDocument) (userQuery modelName : String)
    (h1 : assocGet response "output" = none) (h2 : assocGet response "answer" = none)
    (h3 : assocGet response "result" = none) :
    extractRecommendations response = "No recommendations generated" ∧
    getRecommendations true response similarDocs userQuery modelName = .ok
      { query := userQuery,
        recommendations := formatAnswer "No recommendations generated",
        similarMovies := similarDocs.map
          (fun d => ⟨String.mk (d.content.toList.take 200) ++ "...", d.animeId⟩),
        modelUsed := modelName } := by
  have he : extractRecommendations response = "No recommendations generated" := by
    unfold extractRecommendations
    rw [h1, h2, h3]
  refine ⟨he, ?_⟩
  unfold getRecommendations
  rw [if_neg (by decide)]
  rw [he]

/-- C5 counterexample: the substituted placeholder is the capitalized
literal "No recommendations generated", not the lowercase literal the
claim quotes. -/
theorem placeholder_literal_counterexample :
    extractRecommendations [] = "No recommendations generated" ∧
    extractRecommendations [] ≠ "no recommendations generated" ∧
    (getRecommendations true [] [] "some query" "gpt-3.5-turbo").map
      (fun r => r.recommendations) =
      .ok "\n=============\nNo recommendations generated\n=============\n" := by
  refine ⟨by decide, by decide, by decide⟩

/-- C5 witness: the amended claim instantiated on a response that only
carries a context key. -/
theorem missing_answer_key_witness :
    extractRecommendations [("context", "ctx")] = "No recommendations generated" ∧
    getRecommendations true [("context", "ctx")] [] "some query" "gpt-3.5-turbo" = .ok
      { query := "some query",
        recommendations := formatAnswer "No recommendations generated",
        similarMovies := ([] : List VSDocument).map
          (fun d => ⟨String.mk (d.content.toList.take 200) ++ "...", d.animeId⟩),
        modelUsed := "gpt-3.5-turbo" } :=
  missing_answer_key_uses_placeholder [("context", "ctx")] [] "some query" "gpt-3.5-turbo"
    (by decide) (by decide) (by decide)

/-- C4: if a pipeline stage raises, the run aborts immediately: the result
is the same whatever the outcomes of the never-executed later stages, the
overall status is failed with the error recorded in the results, and the
status flags of the stages completed earlier in the run remain true while
later flags stay false. -/
theorem pipeline_stage_failure_aborts_without_rollback (e : String)
    (s2 s3 : Except String Unit) :
    runCompletePipeline (.error e) s2 s3 initialPipelineStatus =
      (⟨"failed", [], [e]⟩, ⟨false, false, false, "failed"⟩) ∧
    runCompletePipeline (.ok ()) (.error e) s3 initialPipelineStatus =
      (⟨"failed", ["data_loading"], [e]⟩, ⟨true, false, false, "failed"⟩) ∧
    runCompletePipeline (.ok ()) (.ok ()) (.error e) initialPipelineStatus =
      (⟨"failed", ["data_loading", "vector_store_creation"], [e]⟩,
       ⟨true, true, false, "failed"⟩) :=
  ⟨rfl, rfl, rfl⟩

/-- C10: in get_recommendations_by_rating, a retrieved entry whose parsed
rating value is present but not a numeral makes the unguarded float()
conversion raise ValueError for the whole call, whatever the remaining
entries; only an absent rating key degrades gracefully, defaulting to 0 and
(for a positive threshold) filtering the entry out while the rest is
processed normally. -/
theorem rating_conversion_unguarded (minRating : ℚ) (d : String) (rest : List String) :
    (∀ s, assocGet (parseMovieInfo d) "rating" = some s → parseFloat s = none →
      getRecommendationsByRating minRating (d :: rest) =
        .error .valueErrorFloatConversion) ∧
    (assocGet (parseMovieInfo d) "rating" = none → 0 < minRating →
      getRecommendationsByRating minRating (d :: rest) =
        getRecommendationsByRating minRating rest) := by
  constructor
  · intro s hs hp
    simp only [getRecommendationsByRating, hs, ratingToFloat, hp]
  · intro h hm
    simp only [getRecommendationsByRating, h, ratingToFloat]
    have hle : ¬ (minRating ≤ 0) := not_le.mpr hm
    cases hr : getRecommendationsByRating minRating rest with
    | error e => simp [hr]
    | ok recs => simp [hr, hle]

/-- C10 witness: the sentinel "Unknown" as rating aborts the call with the
conversion error, while an entry with no rating key at all is skipped
gracefully under the default threshold 8. -/
theorem rating_conversion_unguarded_witness :
    getRecommendationsByRating 8 ["rating: Unknown"] =
      .error .valueErrorFloatConversion ∧
    getRecommendationsByRating 8 ["title: foo"] = getRecommendationsByRating 8 [] :=
  ⟨(rating_conversion_unguarded 8 "rating: Unknown" []).1 "Unknown" (by decide) (by decide),
   (rating_conversion_unguarded 8 "title: foo" []).2 (by decide) (by decide)⟩

end MovieRec
